import Mathlib

/-!
Shallow embedding of the brltty key-event translation engine
(Programs/ktb_translate.c): pressed-key tracking, hotkey and
key-combination lookup, the keyboard-emulation overlay, context switching
and the command dispatch logic of processKeyEvent.

Machine integers of the C code are modelled as Nat; the C sentinel EOF
used for "no command" is modelled as Option.none; bit operations use
Nat.lor / Nat.land.  The diagnostic logging block at the end of
processKeyEvent performs no state change and forwards no command, so it is
not modelled.
-/

namespace Ktb

/-- A physical key: the `set` field is its device key group, `key` its code
within the group (struct KeyValue of ktb_internal.h, as described by the
spec data model: group, then code). -/
structure KeyValue where
  set : Nat
  key : Nat
deriving DecidableEq, Repr

/-- Modelled from the spec: the distinguished sentinel code meaning "any
code within this group" (KTB_KEY_MAX, declared outside src/). -/
def KTB_KEY_MAX : Nat := 255

/-- Modelled from the spec: the fixed maximum number of simultaneously held
modifiers a combination may carry (MAX_MODIFIERS_PER_COMBINATION, declared
outside src/). -/
def MAX_MODIFIERS_PER_COMBINATION : Nat := 8

/-- The trigger pattern of one binding (struct KeyCombination): an optional
immediate key (present when the KCF_IMMEDIATE_KEY flag is set) plus the
list of modifier keys.  The C code zero-initialises the search target, so
an absent immediate key is stored as the zero key value; concrete tables
below follow the same convention so that structural equality coincides
with the comparator of the matcher. -/
structure KeyCombination where
  hasImmediateKey : Bool
  immediateKey : KeyValue
  modifierKeys : List KeyValue
deriving DecidableEq, Repr

/-- The KBF_ADJUST binding flag (value modelled from the spec; only its
presence matters). -/
def KBF_ADJUST : Nat := 1

/-- One key binding (struct KeyBinding).  `command = none` models the C
reserved placeholder command EOF used to flag incomplete chords. -/
structure KeyBinding where
  combination : KeyCombination
  command : Option Nat
  flags : Nat
deriving DecidableEq, Repr

/-- One hotkey rule (struct HotkeyEntry). -/
structure HotkeyEntry where
  keyValue : KeyValue
  pressCommand : Nat
  releaseCommand : Nat
deriving DecidableEq, Repr

/-- One key context (struct KeyContext, as consumed by the engine).  The
keyboard-function map is modelled as an association list from key code to
the keyboard function's command bit: absence models KBF_None, a `0` bit
models the space function, a non-zero bit a dot (or other) function, which
is all that makeKeyboardCommand reads from keyboardFunctionTable.  The
`isTemporary` marker is modelled from the spec (isTemporaryKeyContext is
declared outside src/). -/
structure KeyContext where
  sortedKeyBindings : List KeyBinding
  sortedHotkeyEntries : List HotkeyEntry
  keyMap : Option (List (Nat × Nat))
  superimposedBits : Nat
  isTemporary : Bool
deriving DecidableEq, Repr

/-- The live engine state (struct KeyTable).  `command = none` models
`table->command == EOF`.  The contexts array is immutable during
operation; `pressedKeys` is kept sorted by the pressed-key set
operations. -/
structure KeyTable where
  ctxs : List KeyContext
  currentContext : Nat
  persistentContext : Nat
  pressedKeys : List KeyValue
  command : Option Nat
  immediate : Bool
deriving DecidableEq, Repr

/-- Modelled from the spec: command layout constants of brl.h (declared
outside src/): an integer command is a block selector, an argument byte
and flag bits in disjoint bit fields. -/
def BRL_MSK_ARG : Nat := 0xFF

/-- Modelled from the spec: the block-selector bit field of a command. -/
def BRL_MSK_BLK : Nat := 0xFF00

/-- Modelled from the spec: repeat-immediately flag bit. -/
def BRL_FLG_REPEAT_INITIAL : Nat := 0x800000

/-- Modelled from the spec: repeat-after-delay flag bit. -/
def BRL_FLG_REPEAT_DELAY : Nat := 0x400000

/-- Modelled from the spec: the no-op command. -/
def BRL_CMD_NOOP : Nat := 0

/-- Modelled from the spec: block selector of virtual braille-keyboard
dot commands. -/
def BRL_BLK_PASSDOTS : Nat := 0x2200

/-- Modelled from the spec: the reserved context-switch block selector. -/
def BRL_BLK_CONTEXT : Nat := 0x2300

/-- Modelled from the spec: the distinguished combined dots-plus-space
command flag produced for the chord pseudo-context. -/
def BRL_DOTC : Nat := 0x10000

/-- Modelled from the spec: the reserved context id meaning both the
default context and, at the processKeyEvent interface, "use the table's
current context". -/
def BRL_CTX_DEFAULT : Nat := 0

/-- Modelled from the spec: the dedicated chord pseudo-context id. -/
def BRL_CTX_CHORDS : Nat := 0x30

/-- Modelled from the spec: BRL_DELAYED_COMMAND (declared outside src/)
recognises a command dispatched as a delayed repeat: it carries the
repeat-after-delay flag without the repeat-immediately flag.  (The engine
adds the delay flag to every dispatched command and the initial flag
exactly to immediate matches, so under this test immediate matches do
execute a context switch while delayed ones do not, as the one-shot
context behaviour of the spec requires.) -/
def BRL_DELAYED_COMMAND (cmd : Nat) : Bool :=
  (cmd &&& BRL_FLG_REPEAT_DELAY != 0) && (cmd &&& BRL_FLG_REPEAT_INITIAL == 0)

/-- Modelled from the spec: getKeyContext (declared outside src/) resolves
a context id to its read-only context, and an unknown id is treated as
"context not found". -/
def getKeyContext (t : KeyTable) (context : Nat) : Option KeyContext :=
  t.ctxs[context]?

/-- The total order over key values used by the pressed-key set: group,
then code (modelled from the spec; compareKeyValues is declared outside
src/). -/
def keyValueLt (a b : KeyValue) : Bool :=
  a.set < b.set || (a.set == b.set && a.key < b.key)

/-- Modelled from the spec: findKeyValue (declared outside src/) locates a
key in the sorted pressed-key list by exact equality; it reports whether
the key is present together with its position, or with the sorted
insertion point when absent. -/
def findKeyValue : List KeyValue → KeyValue → Bool × Nat
  | [], _ => (false, 0)
  | x :: xs, v =>
    if keyValueLt x v then
      let r := findKeyValue xs v
      (r.1, r.2 + 1)
    else if x = v then (true, 0)
    else (false, 0)

/-- Modelled from the spec: insertKeyValue (declared outside src/) inserts
a key at a given position, preserving the order of the other elements. -/
def insertAt : Nat → KeyValue → List KeyValue → List KeyValue
  | 0, v, l => v :: l
  | _ + 1, v, [] => [v]
  | n + 1, v, x :: xs => x :: insertAt n v xs

/-- Modelled from the spec: removeKeyValue (declared outside src/) removes
the key at a given position in place. -/
def removeAt : Nat → List KeyValue → List KeyValue
  | _, [] => []
  | 0, _ :: xs => xs
  | n + 1, x :: xs => x :: removeAt n xs

/-- Wildcard canonicalisation of one key value of a search target: a key
from a non-zero group has its code replaced by the sentinel
(ktb_translate.c, findKeyBinding). -/
def wildcardKeyValue (kv : KeyValue) : KeyValue :=
  if kv.set != 0 then { kv with key := KTB_KEY_MAX } else kv

/-- The search target combination built by findKeyBinding from the pressed
keys and the optional immediate key, after wildcard canonicalisation. -/
def mkSearchTarget (pressed : List KeyValue) (immediate : Option KeyValue) :
    KeyCombination :=
  { hasImmediateKey := immediate.isSome
    immediateKey :=
      match immediate with
      | some kv => wildcardKeyValue kv
      | none => ⟨0, 0⟩
    modifierKeys := pressed.map wildcardKeyValue }

/-- findKeyBinding of ktb_translate.c.  The binary search over the
pre-sorted binding array (which, by the table-compiler invariant of the
spec, contains at most one binding comparing equal to any target) is
modelled as the first binding whose combination equals the canonicalised
target.  Returns the matched binding when it carries a real command, and
the "incomplete chord" indication when the matched binding carries the
placeholder command. -/
def findKeyBinding (t : KeyTable) (context : Nat) (immediate : Option KeyValue) :
    Option KeyBinding × Bool :=
  match getKeyContext t context with
  | some ctx =>
    if t.pressedKeys.length ≤ MAX_MODIFIERS_PER_COMBINATION then
      let target := mkSearchTarget t.pressedKeys immediate
      match ctx.sortedKeyBindings.find? (fun b => b.combination == target) with
      | some b => if b.command.isSome then (some b, false) else (none, true)
      | none => (none, false)
    else (none, false)
  | none => (none, false)

/-- findHotkeyEntry of ktb_translate.c: binary search of the context's
sorted hotkey table for the exact key value, modelled as the first entry
with that key value. -/
def findHotkeyEntry (t : KeyTable) (context : Nat) (kv : KeyValue) :
    Option HotkeyEntry :=
  match getKeyContext t context with
  | some ctx => ctx.sortedHotkeyEntries.find? (fun h => h.keyValue == kv)
  | none => none

/-- The pressed-key loop of makeKeyboardCommand: accumulates the keyboard
function bits of every pressed key and the dot-pressed / space-pressed
indications, failing when a pressed key is from a non-zero group or has no
assigned keyboard function. -/
def accumulateKeyboard (km : List (Nat × Nat)) :
    List KeyValue → Nat → Bool → Bool → Option (Nat × Bool × Bool)
  | [], cmd, dot, space => some (cmd, dot, space)
  | kv :: rest, cmd, dot, space =>
    if kv.set != 0 then none
    else
      match km.lookup kv.key with
      | none => none
      | some bit =>
        let cmd := cmd ||| bit
        if bit == 0 then accumulateKeyboard km rest cmd dot true
        else if bit &&& BRL_MSK_ARG != 0 then accumulateKeyboard km rest cmd true space
        else accumulateKeyboard km rest cmd dot space

/-- makeKeyboardCommand of ktb_translate.c: the keyboard-emulation
overlay.  `none` models the C return value EOF. -/
def makeKeyboardCommand (t : KeyTable) (context : Nat) : Option Nat :=
  let chordsRequested := context == BRL_CTX_CHORDS
  let context := if chordsRequested then t.persistentContext else context
  match getKeyContext t context with
  | none => none
  | some ctx =>
    match ctx.keyMap with
    | none => none
    | some km =>
      match accumulateKeyboard km t.pressedKeys BRL_BLK_PASSDOTS false false with
      | none => none
      | some (cmd, dot, space) =>
        let cmd := if dot then cmd ||| ctx.superimposedBits else cmd
        if chordsRequested && space then some (cmd ||| BRL_DOTC)
        else if dot == space then none
        else some cmd

/-- processCommand of ktb_translate.c: executes a context-switch command
locally (when the target context exists and the command is not a delayed
repeat) and replaces it by the no-op before forwarding; every other
command is forwarded unchanged.  The second component is the value handed
to enqueueCommand. -/
def processCommand (t : KeyTable) (command : Nat) : KeyTable × Nat :=
  let blk := command &&& BRL_MSK_BLK
  let arg := command &&& BRL_MSK_ARG
  if blk == BRL_BLK_CONTEXT then
    let t :=
      if BRL_DELAYED_COMMAND command then t
      else
        let context := BRL_CTX_DEFAULT + arg
        match getKeyContext t context with
        | some ctx =>
          if ctx.isTemporary then { t with currentContext := context }
          else { t with currentContext := context, persistentContext := context }
        | none => t
    (t, BRL_CMD_NOOP)
  else
    (t, command)

/-- The four result states of processKeyEvent (KeyTableState of ktb.h). -/
inductive KeyTableState where
  | KTS_UNBOUND
  | KTS_MODIFIERS
  | KTS_COMMAND
  | KTS_HOTKEY
deriving DecidableEq, Repr

/-- The observable outcome of one processKeyEvent call: the returned
state, the table afterwards, the command handed to processCommand (if
any), the value processCommand forwarded to enqueueCommand (if any), and
the working context the event was evaluated in (the context after the
reserved-id substitution, recorded for specification purposes). -/
structure PKEResult where
  state : KeyTableState
  table : KeyTable
  dispatched : Option Nat
  enqueued : Option Nat
  workingContext : Nat
deriving DecidableEq, Repr

/-- The reserved-context substitution at the top of processKeyEvent: the
default-context id passed by the caller means the table's current
context. -/
def resolveEventContext (t : KeyTable) (context : Nat) : Nat :=
  if context == BRL_CTX_DEFAULT then t.currentContext else context

/-- The one-shot reset performed by every press event: the current context
snaps back to the persistent context. -/
def pressReset (t : KeyTable) : KeyTable :=
  { t with currentContext := t.persistentContext }

/-- The pressed-key removal step of processKeyEvent: remove the event's
key from the pressed set when present, returning the table and the
position used for re-insertion. -/
def removeStep (t : KeyTable) (kv : KeyValue) : KeyTable × Nat :=
  let f := findKeyValue t.pressedKeys kv
  (if f.1 then { t with pressedKeys := removeAt f.2 t.pressedKeys } else t, f.2)

/-- The outcome of the press-resolution chain of processKeyEvent. -/
structure PressResolution where
  table : KeyTable
  command : Option Nat
  binding : Option KeyBinding
  immediate : Bool
  isIncomplete : Bool
deriving DecidableEq, Repr

/-- The press-resolution chain of processKeyEvent (lines 221-248 of
ktb_translate.c), starting from the table with the event's key removed:
immediate-key lookup in the working context (before re-insertion), then
re-insertion of the key, then chord-only lookup, then the keyboard
overlay, then - outside the default context - the immediate-key and
chord-only lookups against the default context (with the key removed
again for the immediate-key one, exactly as the C code does). -/
def resolvePress (t : KeyTable) (context : Nat) (kv : KeyValue) (keyPosition : Nat) :
    PressResolution :=
  let f1 := findKeyBinding t context (some kv)
  let tIns : KeyTable := { t with pressedKeys := insertAt keyPosition kv t.pressedKeys }
  match f1.1 with
  | some b => ⟨tIns, b.command, some b, true, f1.2⟩
  | none =>
    let f2 := findKeyBinding tIns context none
    match f2.1 with
    | some b => ⟨tIns, b.command, some b, false, f1.2 || f2.2⟩
    | none =>
      match makeKeyboardCommand tIns context with
      | some c => ⟨tIns, some c, none, false, f1.2 || f2.2⟩
      | none =>
        if context == BRL_CTX_DEFAULT then
          ⟨tIns, none, none, true, f1.2 || f2.2⟩
        else
          let f3 := findKeyBinding t BRL_CTX_DEFAULT (some kv)
          match f3.1 with
          | some b => ⟨tIns, b.command, some b, true, f1.2 || f2.2 || f3.2⟩
          | none =>
            let f4 := findKeyBinding tIns BRL_CTX_DEFAULT none
            match f4.1 with
            | some b => ⟨tIns, b.command, some b, false, f1.2 || f2.2 || f3.2 || f4.2⟩
            | none => ⟨tIns, none, none, true, f1.2 || f2.2 || f3.2 || f4.2⟩

/-- The ADJUST-flag argument source: the key code of the first pressed key
whose group field is non-zero, or nothing to add when there is none
(lines 261-272 of ktb_translate.c). -/
def adjustKeyArgument (pressed : List KeyValue) : Nat :=
  match pressed.find? (fun p => p.set != 0) with
  | some p => p.key
  | none => 0

/-- Whether the resolving binding carries the ADJUST flag.  When the
command came from the keyboard overlay the C code reads the flags through
a null binding pointer (undefined behaviour); the model reads the flag as
absent there. -/
def bindingHasAdjust : Option KeyBinding → Bool
  | some b => b.flags &&& KBF_ADJUST != 0
  | none => false

/-- The command-determination and dispatch step for a press event
(lines 250-286 of ktb_translate.c), applied to a press resolution. -/
def dispatchResolved (r : PressResolution) (workingContext : Nat) : PKEResult :=
  match r.command with
  | none =>
    let state :=
      if r.isIncomplete then KeyTableState.KTS_MODIFIERS else KeyTableState.KTS_UNBOUND
    match r.table.command with
    | some _ =>
      let t2 : KeyTable := { r.table with command := none }
      let pr := processCommand t2 BRL_CMD_NOOP
      ⟨state, pr.1, some BRL_CMD_NOOP, some pr.2, workingContext⟩
    | none => ⟨state, r.table, none, none, workingContext⟩
  | some cmd =>
    if some cmd = r.table.command then
      ⟨KeyTableState.KTS_COMMAND, r.table, none, none, workingContext⟩
    else
      let t2 : KeyTable := { r.table with command := some cmd, immediate := r.immediate }
      let adj :=
        if bindingHasAdjust r.binding then adjustKeyArgument t2.pressedKeys else 0
      let cmd2 :=
        if r.immediate then
          (cmd + adj) ||| BRL_FLG_REPEAT_INITIAL ||| BRL_FLG_REPEAT_DELAY
        else
          (cmd + adj) ||| BRL_FLG_REPEAT_DELAY
      let pr := processCommand t2 cmd2
      ⟨KeyTableState.KTS_COMMAND, pr.1, some cmd2, some pr.2, workingContext⟩

/-- The release step of processKeyEvent (lines 287-298): when a command is
active, dispatch the no-op if it had been immediate and the command itself
otherwise, then clear it; the state stays unbound. -/
def releaseStep (t : KeyTable) (workingContext : Nat) : PKEResult :=
  match t.command with
  | some acmd =>
    let cmd := if t.immediate then BRL_CMD_NOOP else acmd
    let t2 : KeyTable := { t with command := none }
    let pr := processCommand t2 cmd
    ⟨KeyTableState.KTS_UNBOUND, pr.1, some cmd, some pr.2, workingContext⟩
  | none => ⟨KeyTableState.KTS_UNBOUND, t, none, none, workingContext⟩

/-- processKeyEvent of ktb_translate.c: the sole entry point of the
engine. -/
def processKeyEvent (t0 : KeyTable) (context0 s key : Nat) (press : Bool) :
    PKEResult :=
  let kv : KeyValue := ⟨s, key⟩
  let context := resolveEventContext t0 context0
  let t := if press then pressReset t0 else t0
  match findHotkeyEntry t context kv with
  | some hotkey =>
    let cmd := if press then hotkey.pressCommand else hotkey.releaseCommand
    if cmd = BRL_CMD_NOOP then ⟨KeyTableState.KTS_HOTKEY, t, none, none, context⟩
    else
      let pr := processCommand t cmd
      ⟨KeyTableState.KTS_HOTKEY, pr.1, some cmd, some pr.2, context⟩
  | none =>
    let rs := removeStep t kv
    if press then dispatchResolved (resolvePress rs.1 context kv rs.2) context
    else releaseStep rs.1 context

/-! Concrete key tables used to evaluate the engine on explicit inputs. -/

/-- A context with no bindings, no hotkeys and no keyboard map. -/
def ctxEmpty : KeyContext :=
  { sortedKeyBindings := []
    sortedHotkeyEntries := []
    keyMap := none
    superimposedBits := 0
    isTemporary := false }

/-- A binding triggering on the immediate key (0,5) with no modifiers,
command 0x1100, no flags. -/
def bC3 : KeyBinding :=
  { combination :=
      { hasImmediateKey := true
        immediateKey := ⟨0, 5⟩
        modifierKeys := [] }
    command := some 0x1100
    flags := 0 }

/-- A context whose single binding is bC3. -/
def ctxBind5 : KeyContext :=
  { ctxEmpty with sortedKeyBindings := [bC3] }

/-- An ADJUST-flagged binding triggering on the immediate key (0,5) over
the modifiers (0,3) and the wildcarded (1,max). -/
def bC1 : KeyBinding :=
  { combination :=
      { hasImmediateKey := true
        immediateKey := ⟨0, 5⟩
        modifierKeys := [⟨0, 3⟩, ⟨1, KTB_KEY_MAX⟩] }
    command := some 0x1100
    flags := KBF_ADJUST }

/-- A table for the ADJUST-flag claim: one context whose binding triggers
on immediate key (0,5) over the modifiers (0,3) and the wildcarded (1,7),
with the ADJUST flag; keys (0,3) and (1,7) are already held. -/
def tC1 : KeyTable :=
  { ctxs := [{ ctxEmpty with sortedKeyBindings := [bC1] }]
    currentContext := 0
    persistentContext := 0
    pressedKeys := [⟨0, 3⟩, ⟨1, 7⟩]
    command := none
    immediate := true }

/-- A table for the context-fallback claims: the default context owns a
keyboard map sending key 3 to dot bit 1, and context 1 is empty. -/
def tC2 : KeyTable :=
  { ctxs := [{ ctxEmpty with keyMap := some [(3, 1)] }, ctxEmpty]
    currentContext := 0
    persistentContext := 0
    pressedKeys := []
    command := none
    immediate := true }

/-- A table whose default context binds the immediate key (0,5) and whose
context 1 is empty, so a press in context 1 falls back to the default
context's immediate-key binding. -/
def tC3 : KeyTable :=
  { ctxs := [ctxBind5, ctxEmpty]
    currentContext := 0
    persistentContext := 0
    pressedKeys := []
    command := none
    immediate := true }

/-- A table with a pending one-shot context: the current context 1 binds
the immediate key (0,5), while the persistent default context registers
the same key as a hotkey (with no-op commands). -/
def tC4 : KeyTable :=
  { ctxs :=
      [ { ctxEmpty with
          sortedHotkeyEntries :=
            [ { keyValue := ⟨0, 5⟩
                pressCommand := BRL_CMD_NOOP
                releaseCommand := BRL_CMD_NOOP } ] }
      , ctxBind5 ]
    currentContext := 1
    persistentContext := 0
    pressedKeys := []
    command := none
    immediate := true }

/-- A table whose default context has a hotkey whose press command
switches to the temporary context 1. -/
def tC5 : KeyTable :=
  { ctxs :=
      [ { ctxEmpty with
          sortedHotkeyEntries :=
            [ { keyValue := ⟨0, 5⟩
                pressCommand := BRL_BLK_CONTEXT ||| 1
                releaseCommand := BRL_CMD_NOOP } ] }
      , { ctxEmpty with isTemporary := true } ]
    currentContext := 0
    persistentContext := 0
    pressedKeys := []
    command := none
    immediate := true }

/-- A minimal table with only the default context. -/
def tC6 : KeyTable :=
  { ctxs := [ctxEmpty]
    currentContext := 0
    persistentContext := 0
    pressedKeys := []
    command := none
    immediate := true }

/-- A table holding key (0,3) whose default context maps key 3 to dot
bit 1, used to exercise the keyboard overlay. -/
def tW7 : KeyTable :=
  { ctxs := [{ ctxEmpty with keyMap := some [(3, 1)] }]
    currentContext := 0
    persistentContext := 0
    pressedKeys := [⟨0, 3⟩]
    command := none
    immediate := true }

/-- A table holding a dot key (0,3) and a space key (0,9) together, used
to exercise the chord pseudo-context of the keyboard overlay. -/
def tW7c : KeyTable :=
  { ctxs := [{ ctxEmpty with keyMap := some [(3, 1), (9, 0)] }]
    currentContext := 0
    persistentContext := 0
    pressedKeys := [⟨0, 3⟩, ⟨0, 9⟩]
    command := none
    immediate := true }

/-- A steady-state table: key (0,5) held, with the command of its binding
already active. -/
def tW8 : KeyTable :=
  { ctxs := [ctxBind5]
    currentContext := 0
    persistentContext := 0
    pressedKeys := [⟨0, 5⟩]
    command := some 0x1100
    immediate := true }

/-- A table whose default context registers key (0,5) as a hotkey, with
another key held and a command active. -/
def tW10 : KeyTable :=
  { ctxs :=
      [ { ctxEmpty with
          sortedHotkeyEntries :=
            [ { keyValue := ⟨0, 5⟩
                pressCommand := 0x1100
                releaseCommand := BRL_CMD_NOOP } ] } ]
    currentContext := 0
    persistentContext := 0
    pressedKeys := [⟨0, 7⟩]
    command := some 0x2222
    immediate := false }

/-! Theorems settling the claims. -/

/-- C1 counterexample: with keys (0,3) and (1,7) held and an
ADJUST-flagged binding matched by pressing (0,5), the engine adds 7, the
code of the first pressed key whose group field is non-zero, to the
command argument - not 3, the code of the first pressed key whose group
field is zero, which is what the claim ("the first pressed key whose set
flag is false") predicts. -/
theorem C1_counterexample :
    (processKeyEvent tC1 0 0 5 true).dispatched =
        some ((0x1100 + 7) ||| BRL_FLG_REPEAT_INITIAL ||| BRL_FLG_REPEAT_DELAY) ∧
    ((processKeyEvent tC1 0 0 5 true).table.pressedKeys.find?
        (fun p => p.set == 0)).map KeyValue.key = some 3 ∧
    (processKeyEvent tC1 0 0 5 true).dispatched ≠
        some ((0x1100 + 3) ||| BRL_FLG_REPEAT_INITIAL ||| BRL_FLG_REPEAT_DELAY) := by
  decide

/-- C2 counterexample: a press of (0,3) in the empty non-default context 1
fails all three attempts there and both binding lookups in the default
context, and the engine reports UNBOUND with nothing dispatched - although
the keyboard-emulation overlay, evaluated against the default context as
the claimed third repeated attempt would do, yields a command.  The
overlay is therefore not retried against the default context. -/
theorem C2_counterexample :
    (processKeyEvent tC2 1 0 3 true).state = KeyTableState.KTS_UNBOUND ∧
    (processKeyEvent tC2 1 0 3 true).dispatched = none ∧
    makeKeyboardCommand (processKeyEvent tC2 1 0 3 true).table BRL_CTX_DEFAULT =
      some (BRL_BLK_PASSDOTS ||| 1) := by
  decide

/-- C3 counterexample: a press of (0,5) in the empty non-default context 1
matches the default context's immediate-key binding through the fallback,
and the dispatched command carries the repeat-initial flag (bit 23) - the
claim predicts a non-immediate, delay-only command. -/
theorem C3_counterexample :
    (processKeyEvent tC3 1 0 5 true).state = KeyTableState.KTS_COMMAND ∧
    (processKeyEvent tC3 1 0 5 true).dispatched =
      some (0x1100 ||| BRL_FLG_REPEAT_INITIAL ||| BRL_FLG_REPEAT_DELAY) ∧
    Nat.testBit ((processKeyEvent tC3 1 0 5 true).dispatched.getD 0) 23 = true := by
  decide

/-- C4 counterexample: a press of (0,5) delivered with the reserved
context id while the one-shot context 1 is current produces the COMMAND
state, but the matching release resolves in the (reset) default context
where (0,5) is a hotkey, so the release is intercepted and activeCommand
is NOT cleared. -/
theorem C4_counterexample :
    (processKeyEvent tC4 BRL_CTX_DEFAULT 0 5 true).state = KeyTableState.KTS_COMMAND ∧
    (processKeyEvent (processKeyEvent tC4 BRL_CTX_DEFAULT 0 5 true).table
        BRL_CTX_DEFAULT 0 5 false).state = KeyTableState.KTS_HOTKEY ∧
    (processKeyEvent (processKeyEvent tC4 BRL_CTX_DEFAULT 0 5 true).table
        BRL_CTX_DEFAULT 0 5 false).table.command ≠ none := by
  decide

/-- C5 counterexample: after a hotkey press switches to the temporary
context 1, the next key event (a release) is evaluated in context 1, but
the current context does NOT revert afterwards: the following event (a
press) is ALSO evaluated in context 1, so the non-persistent switch
applies to more than exactly one subsequent key event. -/
theorem C5_counterexample :
    (processKeyEvent tC5 BRL_CTX_DEFAULT 0 5 true).table.currentContext = 1 ∧
    (processKeyEvent tC5 BRL_CTX_DEFAULT 0 5 true).table.persistentContext = 0 ∧
    (processKeyEvent (processKeyEvent tC5 BRL_CTX_DEFAULT 0 5 true).table
        BRL_CTX_DEFAULT 0 9 false).workingContext = 1 ∧
    (processKeyEvent (processKeyEvent tC5 BRL_CTX_DEFAULT 0 5 true).table
        BRL_CTX_DEFAULT 0 9 false).table.currentContext = 1 ∧
    (processKeyEvent (processKeyEvent (processKeyEvent tC5 BRL_CTX_DEFAULT 0 5 true).table
        BRL_CTX_DEFAULT 0 9 false).table BRL_CTX_DEFAULT 0 9 true).workingContext = 1 := by
  decide

/-- C6 counterexample: a context-switch command whose target context does
not exist is replaced by the no-op but does NOT update
table.currentContext, contradicting the claim that every context-switch
block command updates it. -/
theorem C6_counterexample :
    (processCommand tC6 (BRL_BLK_CONTEXT ||| 5)).2 = BRL_CMD_NOOP ∧
    (processCommand tC6 (BRL_BLK_CONTEXT ||| 5)).1.currentContext ≠
      BRL_CTX_DEFAULT + ((BRL_BLK_CONTEXT ||| 5) &&& BRL_MSK_ARG) := by
  decide

/-! Supporting lemmas about the step functions. -/

theorem processCommand_preserves (t : KeyTable) (cmd : Nat) :
    (processCommand t cmd).1.pressedKeys = t.pressedKeys ∧
    (processCommand t cmd).1.command = t.command ∧
    (processCommand t cmd).1.immediate = t.immediate := by
  simp only [processCommand]
  split
  · split
    · exact ⟨rfl, rfl, rfl⟩
    · split
      · split <;> exact ⟨rfl, rfl, rfl⟩
      · exact ⟨rfl, rfl, rfl⟩
  · exact ⟨rfl, rfl, rfl⟩

theorem processCommand_not_context (t : KeyTable) (cmd : Nat)
    (h : cmd &&& BRL_MSK_BLK ≠ BRL_BLK_CONTEXT) : processCommand t cmd = (t, cmd) := by
  simp only [processCommand]
  rw [if_neg (by simpa using h)]

theorem processCommand_snd_blk (t : KeyTable) (cmd : Nat) :
    (processCommand t cmd).2 &&& BRL_MSK_BLK ≠ BRL_BLK_CONTEXT := by
  simp only [processCommand]
  split
  · exact (by decide : BRL_CMD_NOOP &&& BRL_MSK_BLK ≠ BRL_BLK_CONTEXT)
  · next hne => simpa using hne

theorem releaseStep_state (t : KeyTable) (w : Nat) :
    (releaseStep t w).state = KeyTableState.KTS_UNBOUND := by
  simp only [releaseStep]
  split <;> rfl

theorem releaseStep_workingContext (t : KeyTable) (w : Nat) :
    (releaseStep t w).workingContext = w := by
  simp only [releaseStep]
  split <;> rfl

theorem releaseStep_table_command (t : KeyTable) (w : Nat) :
    (releaseStep t w).table.command = none := by
  cases hc : t.command with
  | none => simp only [releaseStep, hc]
  | some a =>
    simp only [releaseStep, hc]
    exact (processCommand_preserves _ _).2.1

theorem releaseStep_dispatched (t : KeyTable) (w : Nat) (a : Nat) (h : t.command = some a) :
    (releaseStep t w).dispatched = some (if t.immediate then BRL_CMD_NOOP else a) := by
  simp only [releaseStep, h]

theorem releaseStep_enqueued (t : KeyTable) (w : Nat) (q : Nat)
    (h : (releaseStep t w).enqueued = some q) :
    ∃ t' x, q = (processCommand t' x).2 := by
  simp only [releaseStep] at h
  split at h
  · exact ⟨_, _, (Option.some_inj.mp h).symm⟩
  · simp at h

theorem dispatchResolved_state_ne_hotkey (r : PressResolution) (w : Nat) :
    (dispatchResolved r w).state ≠ KeyTableState.KTS_HOTKEY := by
  simp only [dispatchResolved]
  split
  · split <;> split <;> simp
  · split
    · simp
    · simp

theorem dispatchResolved_workingContext (r : PressResolution) (w : Nat) :
    (dispatchResolved r w).workingContext = w := by
  simp only [dispatchResolved]
  split
  · split <;> rfl
  · split <;> rfl

theorem dispatchResolved_state_command (r : PressResolution) (w : Nat) (x : Nat)
    (h : r.command = some x) :
    (dispatchResolved r w).state = KeyTableState.KTS_COMMAND := by
  simp only [dispatchResolved, h]
  split <;> rfl

theorem dispatchResolved_table_command (r : PressResolution) (w : Nat) :
    (dispatchResolved r w).table.command = r.command := by
  cases hc : r.command with
  | none =>
    simp only [dispatchResolved, hc]
    split
    · exact (processCommand_preserves _ _).2.1
    · next h => exact h
  | some x =>
    simp only [dispatchResolved, hc]
    split
    · next heq => exact heq.symm
    · exact (processCommand_preserves _ _).2.1

theorem dispatchResolved_enqueued (r : PressResolution) (w : Nat) (q : Nat)
    (h : (dispatchResolved r w).enqueued = some q) :
    ∃ t' x, q = (processCommand t' x).2 := by
  simp only [dispatchResolved] at h
  split at h
  · split at h
    · exact ⟨_, _, (Option.some_inj.mp h).symm⟩
    · simp at h
  · split at h
    · simp at h
    · exact ⟨_, _, (Option.some_inj.mp h).symm⟩

theorem processKeyEvent_enqueued (t : KeyTable) (c s k : Nat) (p : Bool) (q : Nat)
    (h : (processKeyEvent t c s k p).enqueued = some q) :
    ∃ t' x, q = (processCommand t' x).2 := by
  cases p
  case false =>
    simp only [processKeyEvent, Bool.false_eq_true, if_false] at h
    split at h
    · split at h
      · simp at h
      · exact ⟨_, _, (Option.some_inj.mp h).symm⟩
    · exact releaseStep_enqueued _ _ _ h
  case true =>
    simp only [processKeyEvent, eq_self_iff_true, ite_true] at h
    split at h
    · split at h
      · simp at h
      · exact ⟨_, _, (Option.some_inj.mp h).symm⟩
    · exact dispatchResolved_enqueued _ _ _ h

theorem lor_dotc_land_ne_zero (a : Nat) : (a ||| BRL_DOTC) &&& BRL_DOTC ≠ 0 := by
  intro h0
  have hb : Nat.testBit ((a ||| BRL_DOTC) &&& BRL_DOTC) 16 = true := by
    rw [Nat.testBit_land, Nat.testBit_lor]
    have hd : Nat.testBit BRL_DOTC 16 = true := by decide
    simp [hd]
  rw [h0] at hb
  simp [Nat.zero_testBit] at hb

theorem findKeyValue_found : ∀ (l : List KeyValue) (v : KeyValue),
    (findKeyValue l v).1 = true → l[(findKeyValue l v).2]? = some v := by
  intro l
  induction l with
  | nil => intro v h; simp [findKeyValue] at h
  | cons x xs ih =>
    intro v h
    simp only [findKeyValue] at h ⊢
    by_cases hlt : keyValueLt x v = true
    · simp only [hlt, eq_self_iff_true, ite_true] at h ⊢
      simpa using ih v h
    · simp only [hlt, Bool.false_eq_true, if_false] at h ⊢
      by_cases hxv : x = v
      · simp [hxv]
      · simp [hxv] at h

theorem insertAt_removeAt : ∀ (l : List KeyValue) (p : Nat) (v : KeyValue),
    l[p]? = some v → insertAt p v (removeAt p l) = l := by
  intro l
  induction l with
  | nil => intro p v h; simp at h
  | cons x xs ih =>
    intro p v h
    cases p with
    | zero =>
      simp at h
      simp [removeAt, insertAt, h]
    | succ n =>
      simp at h
      simp only [removeAt, insertAt]
      rw [ih n v h]

theorem resolvePress_table (t : KeyTable) (ctx : Nat) (kv : KeyValue) (pos : Nat) :
    (resolvePress t ctx kv pos).table =
      { t with pressedKeys := insertAt pos kv t.pressedKeys } := by
  simp only [resolvePress]
  split
  · rfl
  · split
    · rfl
    · split
      · rfl
      · split
        · rfl
        · split
          · rfl
          · split <;> rfl

theorem removeStep_found (t : KeyTable) (kv : KeyValue)
    (h : (findKeyValue t.pressedKeys kv).1 = true) :
    (removeStep t kv).1 =
      { t with pressedKeys := removeAt (findKeyValue t.pressedKeys kv).2 t.pressedKeys } ∧
    (removeStep t kv).2 = (findKeyValue t.pressedKeys kv).2 := by
  constructor <;> simp [removeStep, h]

theorem removeStep_frame (t : KeyTable) (kv : KeyValue) :
    (removeStep t kv).1.command = t.command ∧
    (removeStep t kv).1.immediate = t.immediate ∧
    (removeStep t kv).1.currentContext = t.currentContext ∧
    (removeStep t kv).1.ctxs = t.ctxs := by
  simp only [removeStep]
  split <;> exact ⟨rfl, rfl, rfl, rfl⟩

theorem findKeyBinding_command_isSome (t : KeyTable) (c : Nat) (i : Option KeyValue)
    (b : KeyBinding) (h : (findKeyBinding t c i).1 = some b) : b.command.isSome := by
  simp only [findKeyBinding] at h
  split at h
  · split at h
    · split at h
      · split at h
        · next hs => cases h; simpa using hs
        · simp at h
      · simp at h
    · simp at h
  · simp at h

/-! Claim theorems (with their witnesses). -/

/-- C9: every release event returns the HOTKEY or the UNBOUND state; the
COMMAND and MODIFIERS states are only ever produced for presses. -/
theorem C9_release_state (t : KeyTable) (c s k : Nat) :
    (processKeyEvent t c s k false).state = KeyTableState.KTS_HOTKEY ∨
    (processKeyEvent t c s k false).state = KeyTableState.KTS_UNBOUND := by
  simp only [processKeyEvent, Bool.false_eq_true, if_false]
  split
  · split <;> exact Or.inl rfl
  · exact Or.inr (releaseStep_state _ _)

/-- C10: an event resolved by the hotkey matcher (state HOTKEY) leaves the
pressed-key set, the active command and the immediate flag unchanged. -/
theorem C10_hotkey_frame_effect (t : KeyTable) (c s k : Nat) (press : Bool)
    (h : (processKeyEvent t c s k press).state = KeyTableState.KTS_HOTKEY) :
    (processKeyEvent t c s k press).table.pressedKeys = t.pressedKeys ∧
    (processKeyEvent t c s k press).table.command = t.command ∧
    (processKeyEvent t c s k press).table.immediate = t.immediate := by
  cases press
  case false =>
    simp only [processKeyEvent, Bool.false_eq_true, if_false] at h ⊢
    cases hk : findHotkeyEntry t (resolveEventContext t c) ⟨s, k⟩
    case none =>
      simp only [hk] at h
      rw [releaseStep_state] at h
      exact absurd h (by decide)
    case some hotkey =>
      simp only [hk]
      split
      · exact ⟨rfl, rfl, rfl⟩
      · exact processCommand_preserves _ _
  case true =>
    simp only [processKeyEvent, eq_self_iff_true, ite_true] at h ⊢
    cases hk : findHotkeyEntry (pressReset t) (resolveEventContext t c) ⟨s, k⟩
    case none =>
      simp only [hk] at h
      exact absurd h (dispatchResolved_state_ne_hotkey _ _)
    case some hotkey =>
      simp only [hk]
      split
      · exact ⟨rfl, rfl, rfl⟩
      · exact ⟨(processCommand_preserves _ _).1, (processCommand_preserves _ _).2.1,
          (processCommand_preserves _ _).2.2⟩

/-- C6 amended: a context-switch block command is always replaced by the
no-op before being enqueued (and no enqueued command ever carries the
context-switch block); it updates the current context (and the persistent
context, unless the target is temporary) exactly when the target context
exists and the command is not a delayed repeat, and otherwise leaves the
table unchanged. -/
theorem C6_context_block_intercepted :
    (∀ (t : KeyTable) (cmd : Nat), cmd &&& BRL_MSK_BLK = BRL_BLK_CONTEXT →
      (processCommand t cmd).2 = BRL_CMD_NOOP ∧
      (BRL_DELAYED_COMMAND cmd = false →
        ∀ ctx, getKeyContext t (BRL_CTX_DEFAULT + (cmd &&& BRL_MSK_ARG)) = some ctx →
          (processCommand t cmd).1.currentContext =
            BRL_CTX_DEFAULT + (cmd &&& BRL_MSK_ARG) ∧
          (processCommand t cmd).1.persistentContext =
            (if ctx.isTemporary then t.persistentContext
             else BRL_CTX_DEFAULT + (cmd &&& BRL_MSK_ARG))) ∧
      ((BRL_DELAYED_COMMAND cmd = true ∨
          getKeyContext t (BRL_CTX_DEFAULT + (cmd &&& BRL_MSK_ARG)) = none) →
        (processCommand t cmd).1 = t)) ∧
    (∀ (t : KeyTable) (c s k : Nat) (p : Bool) (q : Nat),
      (processKeyEvent t c s k p).enqueued = some q →
        q &&& BRL_MSK_BLK ≠ BRL_BLK_CONTEXT) := by
  constructor
  · intro t cmd hblk
    have hb : (cmd &&& BRL_MSK_BLK == BRL_BLK_CONTEXT) = true := by simpa using hblk
    refine ⟨?_, ?_, ?_⟩
    · simp only [processCommand, hb, eq_self_iff_true, ite_true]
    · intro hdel ctx hctx
      simp only [processCommand, hb, eq_self_iff_true, ite_true, hdel,
        Bool.false_eq_true, if_false, hctx]
      split
      · exact ⟨rfl, rfl⟩
      · exact ⟨rfl, rfl⟩
    · intro hd
      cases hd with
      | inl hdel =>
        simp only [processCommand, hb, eq_self_iff_true, ite_true, hdel]
      | inr hnone =>
        simp only [processCommand, hb, eq_self_iff_true, ite_true, hnone]
        split <;> rfl
  · intro t c s k p q h
    obtain ⟨t', x, rfl⟩ := processKeyEvent_enqueued t c s k p q h
    exact processCommand_snd_blk t' x

/-- C7: given that the per-key accumulation over the pressed keys succeeds
with dot and space indications, the overlay produces a command in an
ordinary pseudo-context exactly when one but not both of dots and space
were pressed, and in the chord pseudo-context a dots-plus-space press
produces a command carrying the distinguished combined-command flag. -/
theorem C7_keyboard_overlay_acceptance (t : KeyTable) (context : Nat)
    (ctx : KeyContext) (km : List (Nat × Nat)) (cmd : Nat) (dot space : Bool)
    (hctx : getKeyContext t
        (if context == BRL_CTX_CHORDS then t.persistentContext else context) = some ctx)
    (hkm : ctx.keyMap = some km)
    (hacc : accumulateKeyboard km t.pressedKeys BRL_BLK_PASSDOTS false false =
        some (cmd, dot, space)) :
    ((context == BRL_CTX_CHORDS) = false →
      ((makeKeyboardCommand t context).isSome ↔ dot ≠ space)) ∧
    ((context == BRL_CTX_CHORDS) = true → dot = true → space = true →
      ∃ c, makeKeyboardCommand t context = some c ∧ c &&& BRL_DOTC ≠ 0) := by
  constructor
  · intro hch
    simp only [hch, Bool.false_eq_true, if_false] at hctx
    simp only [makeKeyboardCommand, hch, Bool.false_eq_true, if_false, hctx, hkm, hacc,
      Bool.false_and]
    cases dot <;> cases space <;> simp
  · intro hch hdot hspace
    simp only [hch, eq_self_iff_true, ite_true] at hctx
    simp only [makeKeyboardCommand, hch, eq_self_iff_true, ite_true, hctx, hkm, hacc,
      hdot, hspace, Bool.true_and]
    exact ⟨_, rfl, lor_dotc_land_ne_zero _⟩

/-- C8: a press whose resolution equals the already-active command, with
the key already held and the context in its steady state, is suppressed:
the COMMAND state is returned, nothing is dispatched, and the table is
left exactly unchanged. -/
theorem C8_idempotent_steady_state (t : KeyTable) (c s k cmd : Nat)
    (hhot : findHotkeyEntry (pressReset t) (resolveEventContext t c) ⟨s, k⟩ = none)
    (hfound : (findKeyValue t.pressedKeys ⟨s, k⟩).1 = true)
    (hres : (resolvePress (removeStep (pressReset t) ⟨s, k⟩).1 (resolveEventContext t c)
        ⟨s, k⟩ (removeStep (pressReset t) ⟨s, k⟩).2).command = some cmd)
    (hact : t.command = some cmd)
    (hsteady : t.currentContext = t.persistentContext) :
    processKeyEvent t c s k true =
      ⟨KeyTableState.KTS_COMMAND, t, none, none, resolveEventContext t c⟩ := by
  have hpr : pressReset t = t := by
    cases t
    simp [pressReset] at hsteady ⊢
    exact hsteady.symm
  rw [hpr] at hhot hres
  obtain ⟨hrs1, hrs2⟩ := removeStep_found t ⟨s, k⟩ hfound
  have hins : insertAt (findKeyValue t.pressedKeys ⟨s, k⟩).2 ⟨s, k⟩
      (removeAt (findKeyValue t.pressedKeys ⟨s, k⟩).2 t.pressedKeys) = t.pressedKeys :=
    insertAt_removeAt _ _ _ (findKeyValue_found _ _ hfound)
  have htab : (resolvePress (removeStep t ⟨s, k⟩).1 (resolveEventContext t c)
      ⟨s, k⟩ (removeStep t ⟨s, k⟩).2).table = t := by
    rw [resolvePress_table, hrs1, hrs2]
    cases t
    simp_all
  simp only [processKeyEvent, eq_self_iff_true, ite_true, hpr, hhot]
  simp only [dispatchResolved, hres, htab, hact, eq_self_iff_true, ite_true]

theorem resolvePress_fallback_immediate (t : KeyTable) (ctx : Nat) (kv : KeyValue)
    (pos : Nat) (b : KeyBinding)
    (hne : ctx ≠ BRL_CTX_DEFAULT)
    (h1 : (findKeyBinding t ctx (some kv)).1 = none)
    (h2 : (findKeyBinding { t with pressedKeys := insertAt pos kv t.pressedKeys }
        ctx none).1 = none)
    (h3 : makeKeyboardCommand { t with pressedKeys := insertAt pos kv t.pressedKeys }
        ctx = none)
    (h4 : (findKeyBinding t BRL_CTX_DEFAULT (some kv)).1 = some b) :
    (resolvePress t ctx kv pos).command = b.command ∧
    (resolvePress t ctx kv pos).immediate = true ∧
    (resolvePress t ctx kv pos).binding = some b := by
  have hne' : (ctx == BRL_CTX_DEFAULT) = false := by simpa using hne
  simp only [resolvePress, h1, h2, h3, hne', Bool.false_eq_true, if_false, h4]
  simp

theorem resolvePress_fallback_chord (t : KeyTable) (ctx : Nat) (kv : KeyValue)
    (pos : Nat) (b : KeyBinding)
    (hne : ctx ≠ BRL_CTX_DEFAULT)
    (h1 : (findKeyBinding t ctx (some kv)).1 = none)
    (h2 : (findKeyBinding { t with pressedKeys := insertAt pos kv t.pressedKeys }
        ctx none).1 = none)
    (h3 : makeKeyboardCommand { t with pressedKeys := insertAt pos kv t.pressedKeys }
        ctx = none)
    (h4 : (findKeyBinding t BRL_CTX_DEFAULT (some kv)).1 = none)
    (h5 : (findKeyBinding { t with pressedKeys := insertAt pos kv t.pressedKeys }
        BRL_CTX_DEFAULT none).1 = some b) :
    (resolvePress t ctx kv pos).command = b.command ∧
    (resolvePress t ctx kv pos).immediate = false ∧
    (resolvePress t ctx kv pos).binding = some b := by
  have hne' : (ctx == BRL_CTX_DEFAULT) = false := by simpa using hne
  simp only [resolvePress, h1, h2, h3, hne', Bool.false_eq_true, if_false, h4, h5]
  simp

theorem resolvePress_fallback_unbound (t : KeyTable) (ctx : Nat) (kv : KeyValue)
    (pos : Nat)
    (hne : ctx ≠ BRL_CTX_DEFAULT)
    (h1 : (findKeyBinding t ctx (some kv)).1 = none)
    (h2 : (findKeyBinding { t with pressedKeys := insertAt pos kv t.pressedKeys }
        ctx none).1 = none)
    (h3 : makeKeyboardCommand { t with pressedKeys := insertAt pos kv t.pressedKeys }
        ctx = none)
    (h4 : (findKeyBinding t BRL_CTX_DEFAULT (some kv)).1 = none)
    (h5 : (findKeyBinding { t with pressedKeys := insertAt pos kv t.pressedKeys }
        BRL_CTX_DEFAULT none).1 = none) :
    (resolvePress t ctx kv pos).command = none := by
  have hne' : (ctx == BRL_CTX_DEFAULT) = false := by simpa using hne
  simp only [resolvePress, h1, h2, h3, hne', Bool.false_eq_true, if_false, h4, h5]

theorem dispatchResolved_none_state (r : PressResolution) (w : Nat)
    (h : r.command = none) :
    (dispatchResolved r w).state ≠ KeyTableState.KTS_COMMAND := by
  simp only [dispatchResolved, h]
  split <;> split <;> simp

theorem dispatchResolved_none_dispatched (r : PressResolution) (w : Nat)
    (h : r.command = none) :
    (dispatchResolved r w).dispatched = none ∨
    (dispatchResolved r w).dispatched = some BRL_CMD_NOOP := by
  simp only [dispatchResolved, h]
  split
  · exact Or.inr rfl
  · exact Or.inl rfl

theorem dispatchResolved_dispatch (r : PressResolution) (w : Nat) (x : Nat)
    (hcmd : r.command = some x) (hnew : r.table.command ≠ some x)
    (hadj : bindingHasAdjust r.binding = false) :
    (dispatchResolved r w).dispatched =
      some (if r.immediate then x ||| BRL_FLG_REPEAT_INITIAL ||| BRL_FLG_REPEAT_DELAY
            else x ||| BRL_FLG_REPEAT_DELAY) := by
  have hne : ¬(some x = r.table.command) := fun h => hnew h.symm
  simp only [dispatchResolved, hcmd, if_neg hne, hadj, Bool.false_eq_true, if_false]
  simp

/-- C1 amended: for a press whose matched binding carries the ADJUST flag
and whose command is newly dispatched, the numeric argument added to the
command is the key code of the first pressed key whose group field is
NON-zero - that is, the first key from a wildcard group, whose concrete
code was erased during matching - not the first key whose group field is
zero as the claim states. -/
theorem C1_adjust_from_wildcard_group (t : KeyTable) (c s k : Nat)
    (R : PressResolution) (b : KeyBinding) (cmd : Nat)
    (hhot : findHotkeyEntry (pressReset t) (resolveEventContext t c) ⟨s, k⟩ = none)
    (hres : resolvePress (removeStep (pressReset t) ⟨s, k⟩).1 (resolveEventContext t c)
        ⟨s, k⟩ (removeStep (pressReset t) ⟨s, k⟩).2 = R)
    (hb : R.binding = some b)
    (hadj : b.flags &&& KBF_ADJUST ≠ 0)
    (hcmd : R.command = some cmd)
    (hnew : R.table.command ≠ some cmd) :
    (processKeyEvent t c s k true).dispatched =
      some (if R.immediate then
              (cmd + adjustKeyArgument R.table.pressedKeys) |||
                BRL_FLG_REPEAT_INITIAL ||| BRL_FLG_REPEAT_DELAY
            else
              (cmd + adjustKeyArgument R.table.pressedKeys) ||| BRL_FLG_REPEAT_DELAY) := by
  have hne : ¬(some cmd = R.table.command) := fun h => hnew h.symm
  have hba : bindingHasAdjust R.binding = true := by
    rw [hb]
    simp only [bindingHasAdjust]
    simpa using hadj
  simp only [processKeyEvent, eq_self_iff_true, ite_true, hhot, hres]
  simp only [dispatchResolved, hcmd, if_neg hne, hba, ite_true]

/-- C2 amended: when the immediate-key, chord-only and keyboard-overlay
attempts all fail in a non-default working context, the engine repeats
only the immediate-key and chord-only lookups against the default
context: a default-context immediate-key match yields the COMMAND state,
while failure of both default-context lookups yields no command at all -
the keyboard overlay is not retried against the default context. -/
theorem C2_default_fallback_two_lookups (t : KeyTable) (c s k : Nat)
    (t1 : KeyTable) (pos : Nat)
    (hhot : findHotkeyEntry (pressReset t) (resolveEventContext t c) ⟨s, k⟩ = none)
    (hne : resolveEventContext t c ≠ BRL_CTX_DEFAULT)
    (ht1 : (removeStep (pressReset t) ⟨s, k⟩).1 = t1)
    (hpos : (removeStep (pressReset t) ⟨s, k⟩).2 = pos)
    (h1 : (findKeyBinding t1 (resolveEventContext t c) (some ⟨s, k⟩)).1 = none)
    (h2 : (findKeyBinding { t1 with pressedKeys := insertAt pos ⟨s, k⟩ t1.pressedKeys }
        (resolveEventContext t c) none).1 = none)
    (h3 : makeKeyboardCommand { t1 with pressedKeys := insertAt pos ⟨s, k⟩ t1.pressedKeys }
        (resolveEventContext t c) = none) :
    (∀ b, (findKeyBinding t1 BRL_CTX_DEFAULT (some ⟨s, k⟩)).1 = some b →
      (processKeyEvent t c s k true).state = KeyTableState.KTS_COMMAND) ∧
    ((findKeyBinding t1 BRL_CTX_DEFAULT (some ⟨s, k⟩)).1 = none →
      (findKeyBinding { t1 with pressedKeys := insertAt pos ⟨s, k⟩ t1.pressedKeys }
        BRL_CTX_DEFAULT none).1 = none →
      (processKeyEvent t c s k true).state ≠ KeyTableState.KTS_COMMAND ∧
      ((processKeyEvent t c s k true).dispatched = none ∨
        (processKeyEvent t c s k true).dispatched = some BRL_CMD_NOOP)) := by
  constructor
  · intro b h4
    simp only [processKeyEvent, eq_self_iff_true, ite_true, hhot, ht1, hpos]
    obtain ⟨hc, hi, hbnd⟩ :=
      resolvePress_fallback_immediate t1 (resolveEventContext t c) ⟨s, k⟩ pos b
        hne h1 h2 h3 h4
    obtain ⟨x, hx⟩ := Option.isSome_iff_exists.mp (findKeyBinding_command_isSome _ _ _ _ h4)
    exact dispatchResolved_state_command _ _ x (hc.trans hx)
  · intro h4 h5
    have hc := resolvePress_fallback_unbound t1 (resolveEventContext t c) ⟨s, k⟩ pos
      hne h1 h2 h3 h4 h5
    constructor
    · simp only [processKeyEvent, eq_self_iff_true, ite_true, hhot, ht1, hpos]
      exact dispatchResolved_none_state _ _ hc
    · simp only [processKeyEvent, eq_self_iff_true, ite_true, hhot, ht1, hpos]
      exact dispatchResolved_none_dispatched _ _ hc

/-- C3 amended: in the default-context fallback of a non-default working
context, an immediate-key match is dispatched with BOTH repeat flags
(it keeps the immediate marking), while a chord-only match is dispatched
with only the repeat-after-delay flag (bit 22) and without the
repeat-initial flag (bit 23). -/
theorem C3_fallback_repeat_flags (t : KeyTable) (c s k : Nat) (t1 : KeyTable) (pos : Nat)
    (hhot : findHotkeyEntry (pressReset t) (resolveEventContext t c) ⟨s, k⟩ = none)
    (hne : resolveEventContext t c ≠ BRL_CTX_DEFAULT)
    (ht1 : (removeStep (pressReset t) ⟨s, k⟩).1 = t1)
    (hpos : (removeStep (pressReset t) ⟨s, k⟩).2 = pos)
    (h1 : (findKeyBinding t1 (resolveEventContext t c) (some ⟨s, k⟩)).1 = none)
    (h2 : (findKeyBinding { t1 with pressedKeys := insertAt pos ⟨s, k⟩ t1.pressedKeys }
        (resolveEventContext t c) none).1 = none)
    (h3 : makeKeyboardCommand { t1 with pressedKeys := insertAt pos ⟨s, k⟩ t1.pressedKeys }
        (resolveEventContext t c) = none) :
    (∀ b x, (findKeyBinding t1 BRL_CTX_DEFAULT (some ⟨s, k⟩)).1 = some b →
      b.command = some x → b.flags &&& KBF_ADJUST = 0 → t.command ≠ some x →
      (processKeyEvent t c s k true).dispatched =
        some (x ||| BRL_FLG_REPEAT_INITIAL ||| BRL_FLG_REPEAT_DELAY)) ∧
    ((findKeyBinding t1 BRL_CTX_DEFAULT (some ⟨s, k⟩)).1 = none →
      ∀ b x, (findKeyBinding { t1 with pressedKeys := insertAt pos ⟨s, k⟩ t1.pressedKeys }
          BRL_CTX_DEFAULT none).1 = some b →
        b.command = some x → b.flags &&& KBF_ADJUST = 0 → t.command ≠ some x →
        (processKeyEvent t c s k true).dispatched = some (x ||| BRL_FLG_REPEAT_DELAY) ∧
        Nat.testBit (x ||| BRL_FLG_REPEAT_DELAY) 22 = true ∧
        (Nat.testBit x 23 = false →
          Nat.testBit (x ||| BRL_FLG_REPEAT_DELAY) 23 = false)) := by
  have htc1 : t1.command = t.command := by
    rw [← ht1]
    exact (removeStep_frame _ _).1
  constructor
  · intro b x h4 hbx hflags hnew
    obtain ⟨hc, hi, hbnd⟩ :=
      resolvePress_fallback_immediate t1 (resolveEventContext t c) ⟨s, k⟩ pos b
        hne h1 h2 h3 h4
    have hcx : (resolvePress t1 (resolveEventContext t c) ⟨s, k⟩ pos).command = some x :=
      hc.trans hbx
    have hnewR : (resolvePress t1 (resolveEventContext t c) ⟨s, k⟩ pos).table.command ≠
        some x := by
      rw [resolvePress_table]
      show t1.command ≠ some x
      rw [htc1]
      exact hnew
    have hadjb : bindingHasAdjust
        (resolvePress t1 (resolveEventContext t c) ⟨s, k⟩ pos).binding = false := by
      rw [hbnd]
      simp only [bindingHasAdjust]
      simpa using hflags
    have hd := dispatchResolved_dispatch _ (resolveEventContext t c) x hcx hnewR hadjb
    rw [hi] at hd
    simp only [eq_self_iff_true, ite_true] at hd
    simp only [processKeyEvent, eq_self_iff_true, ite_true, hhot, ht1, hpos]
    exact hd
  · intro h4 b x h5 hbx hflags hnew
    obtain ⟨hc, hi, hbnd⟩ :=
      resolvePress_fallback_chord t1 (resolveEventContext t c) ⟨s, k⟩ pos b
        hne h1 h2 h3 h4 h5
    have hcx : (resolvePress t1 (resolveEventContext t c) ⟨s, k⟩ pos).command = some x :=
      hc.trans hbx
    have hnewR : (resolvePress t1 (resolveEventContext t c) ⟨s, k⟩ pos).table.command ≠
        some x := by
      rw [resolvePress_table]
      show t1.command ≠ some x
      rw [htc1]
      exact hnew
    have hadjb : bindingHasAdjust
        (resolvePress t1 (resolveEventContext t c) ⟨s, k⟩ pos).binding = false := by
      rw [hbnd]
      simp only [bindingHasAdjust]
      simpa using hflags
    have hd := dispatchResolved_dispatch _ (resolveEventContext t c) x hcx hnewR hadjb
    rw [hi] at hd
    simp only [Bool.false_eq_true, if_false] at hd
    refine ⟨?_, ?_, ?_⟩
    · simp only [processKeyEvent, eq_self_iff_true, ite_true, hhot, ht1, hpos]
      exact hd
    · rw [Nat.testBit_lor]
      simp [show Nat.testBit BRL_FLG_REPEAT_DELAY 22 = true from by decide]
    · intro hb23
      rw [Nat.testBit_lor, hb23]
      simp [show Nat.testBit BRL_FLG_REPEAT_DELAY 23 = false from by decide]

theorem processKeyEvent_press_command (t : KeyTable) (c s k : Nat)
    (h : (processKeyEvent t c s k true).state = KeyTableState.KTS_COMMAND) :
    (processKeyEvent t c s k true).table.command.isSome := by
  simp only [processKeyEvent, eq_self_iff_true, ite_true] at h ⊢
  cases hk : findHotkeyEntry (pressReset t) (resolveEventContext t c) ⟨s, k⟩
  case some hotkey =>
    simp only [hk] at h
    split at h <;> simp at h
  case none =>
    simp only [hk] at h ⊢
    rw [dispatchResolved_table_command]
    cases hc : (resolvePress (removeStep (pressReset t) ⟨s, k⟩).1 (resolveEventContext t c)
        ⟨s, k⟩ (removeStep (pressReset t) ⟨s, k⟩).2).command with
    | none => exact absurd h (dispatchResolved_none_state _ _ hc)
    | some x => simp

/-- C4 amended: for every key whose press produced the COMMAND state,
processing the matching release clears the active command and dispatches
a no-op when the active command had been flagged immediate and the active
command itself otherwise - PROVIDED the release is not itself resolved by
a hotkey entry (a hotkey-resolved release leaves the active command
untouched, as the counterexample shows). -/
theorem C4_release_clears_active_command (t : KeyTable) (c s k : Nat)
    (hpress : (processKeyEvent t c s k true).state = KeyTableState.KTS_COMMAND)
    (hhot : findHotkeyEntry (processKeyEvent t c s k true).table
        (resolveEventContext (processKeyEvent t c s k true).table c) ⟨s, k⟩ = none) :
    (processKeyEvent (processKeyEvent t c s k true).table c s k false).table.command =
      none ∧
    (processKeyEvent (processKeyEvent t c s k true).table c s k false).dispatched =
      some (if (processKeyEvent t c s k true).table.immediate then BRL_CMD_NOOP
            else (processKeyEvent t c s k true).table.command.getD 0) := by
  have hsome := processKeyEvent_press_command t c s k hpress
  obtain ⟨a, ha⟩ := Option.isSome_iff_exists.mp hsome
  set t1 := (processKeyEvent t c s k true).table with hT
  simp only [processKeyEvent, Bool.false_eq_true, if_false, hhot]
  have hrc : (removeStep t1 ⟨s, k⟩).1.command = t1.command := (removeStep_frame _ _).1
  have hri : (removeStep t1 ⟨s, k⟩).1.immediate = t1.immediate := (removeStep_frame _ _).2.1
  constructor
  · exact releaseStep_table_command _ _
  · have hd := releaseStep_dispatched (removeStep t1 ⟨s, k⟩).1 (resolveEventContext t1 c)
      a (hrc.trans ha)
    rw [hd, hri, ha]
    simp

theorem processKeyEvent_workingContext (t : KeyTable) (c s k : Nat) (p : Bool) :
    (processKeyEvent t c s k p).workingContext = resolveEventContext t c := by
  cases p
  case false =>
    simp only [processKeyEvent, Bool.false_eq_true, if_false]
    split
    · split <;> rfl
    · exact releaseStep_workingContext _ _
  case true =>
    simp only [processKeyEvent, eq_self_iff_true, ite_true]
    split
    · split <;> rfl
    · exact dispatchResolved_workingContext _ _

theorem dispatchResolved_currentContext (r : PressResolution) (w : Nat)
    (hg : ∀ q, (dispatchResolved r w).dispatched = some q →
        q &&& BRL_MSK_BLK ≠ BRL_BLK_CONTEXT) :
    (dispatchResolved r w).table.currentContext = r.table.currentContext := by
  cases hc : r.command with
  | none =>
    simp only [dispatchResolved, hc] at hg ⊢
    split
    · rw [processCommand_not_context _ _ (by decide)]
    · rfl
  | some x =>
    simp only [dispatchResolved, hc] at hg ⊢
    split
    · rfl
    · next hne =>
      rw [if_neg hne] at hg
      rw [processCommand_not_context _ _ (hg _ rfl)]

theorem releaseStep_currentContext (t : KeyTable) (w : Nat)
    (hg : ∀ q, (releaseStep t w).dispatched = some q →
        q &&& BRL_MSK_BLK ≠ BRL_BLK_CONTEXT) :
    (releaseStep t w).table.currentContext = t.currentContext := by
  cases hc : t.command with
  | none => simp only [releaseStep, hc]
  | some a =>
    simp only [releaseStep, hc] at hg ⊢
    rw [processCommand_not_context _ _ (hg _ rfl)]

/-- C5 amended: every event is evaluated in the working context resolved
from the current context (so a one-shot switch applies to every following
event until a press consumes it), and - provided the event does not itself
dispatch a context-switch command - a press leaves the current context
reset to the persistent context while a release leaves it unchanged: the
one-shot context is consumed by the next PRESS event, with any release
events before it also evaluated in the switched context. -/
theorem C5_one_shot_press_reset (t : KeyTable) (c s k : Nat) (press : Bool)
    (hguard : ∀ q, (processKeyEvent t c s k press).dispatched = some q →
        q &&& BRL_MSK_BLK ≠ BRL_BLK_CONTEXT) :
    (processKeyEvent t c s k press).workingContext = resolveEventContext t c ∧
    (processKeyEvent t c s k press).table.currentContext =
      (if press then t.persistentContext else t.currentContext) := by
  refine ⟨processKeyEvent_workingContext t c s k press, ?_⟩
  cases press
  case true =>
    simp only [processKeyEvent, eq_self_iff_true, ite_true] at hguard ⊢
    cases hk : findHotkeyEntry (pressReset t) (resolveEventContext t c) ⟨s, k⟩
    case some hotkey =>
      simp only [hk] at hguard ⊢
      split
      · rfl
      · next hne =>
        rw [if_neg hne] at hguard
        rw [processCommand_not_context _ _ (hguard _ rfl)]
        rfl
    case none =>
      simp only [hk] at hguard ⊢
      rw [dispatchResolved_currentContext _ _ hguard, resolvePress_table]
      show (removeStep (pressReset t) ⟨s, k⟩).1.currentContext = t.persistentContext
      rw [(removeStep_frame _ _).2.2.1]
      rfl
  case false =>
    simp only [processKeyEvent, Bool.false_eq_true, if_false] at hguard ⊢
    cases hk : findHotkeyEntry t (resolveEventContext t c) ⟨s, k⟩
    case some hotkey =>
      simp only [hk] at hguard ⊢
      split
      · rfl
      · next hne =>
        rw [if_neg hne] at hguard
        rw [processCommand_not_context _ _ (hguard _ rfl)]
    case none =>
      simp only [hk] at hguard ⊢
      rw [releaseStep_currentContext _ _ hguard]
      show (removeStep t ⟨s, k⟩).1.currentContext = t.currentContext
      rw [(removeStep_frame _ _).2.2.1]

/-- C1 witness: the amended ADJUST rule evaluated on the concrete table
tC1, where the first non-zero-group pressed key is (1,7). -/
theorem C1_adjust_witness :
    (processKeyEvent tC1 0 0 5 true).dispatched =
      some ((0x1100 + 7) ||| BRL_FLG_REPEAT_INITIAL ||| BRL_FLG_REPEAT_DELAY) := by
  have h := C1_adjust_from_wildcard_group tC1 0 0 5
    (resolvePress (removeStep (pressReset tC1) ⟨0, 5⟩).1 (resolveEventContext tC1 0)
      ⟨0, 5⟩ (removeStep (pressReset tC1) ⟨0, 5⟩).2)
    bC1 0x1100 (by decide) rfl (by decide) (by decide) (by decide) (by decide)
  exact h.trans (by decide)

/-- C2 witness: in table tC3, a press in the empty context 1 falls back to
the default context, whose immediate-key binding yields COMMAND. -/
theorem C2_fallback_witness :
    (processKeyEvent tC3 1 0 5 true).state = KeyTableState.KTS_COMMAND := by
  have h := C2_default_fallback_two_lookups tC3 1 0 5
    (removeStep (pressReset tC3) ⟨0, 5⟩).1 (removeStep (pressReset tC3) ⟨0, 5⟩).2
    (by decide) (by decide) rfl rfl (by decide) (by decide) (by decide)
  exact h.1 bC3 (by decide)

/-- C3 witness: the default-context immediate-key fallback match of tC3
is dispatched with both repeat flags. -/
theorem C3_flags_witness :
    (processKeyEvent tC3 1 0 5 true).dispatched =
      some (0x1100 ||| BRL_FLG_REPEAT_INITIAL ||| BRL_FLG_REPEAT_DELAY) := by
  have h := C3_fallback_repeat_flags tC3 1 0 5
    (removeStep (pressReset tC3) ⟨0, 5⟩).1 (removeStep (pressReset tC3) ⟨0, 5⟩).2
    (by decide) (by decide) rfl rfl (by decide) (by decide) (by decide)
  exact h.1 bC3 0x1100 (by decide) (by decide) (by decide) (by decide)

/-- C4 witness: a press of (0,5) on tC3 produces COMMAND and the matching
release (not a hotkey) leaves the active command cleared. -/
theorem C4_release_witness :
    (processKeyEvent (processKeyEvent tC3 1 0 5 true).table 1 0 5 false).table.command =
      none :=
  (C4_release_clears_active_command tC3 1 0 5 (by decide) (by decide)).1

/-- C5 witness: the press of (0,5) on tC3 (which dispatches an ordinary,
non-context command) leaves the current context reset to the persistent
context. -/
theorem C5_one_shot_witness :
    (processKeyEvent tC3 1 0 5 true).table.currentContext = tC3.persistentContext := by
  have hg : ∀ q, (processKeyEvent tC3 1 0 5 true).dispatched = some q →
      q &&& BRL_MSK_BLK ≠ BRL_BLK_CONTEXT := by
    intro q hq
    have hd : (processKeyEvent tC3 1 0 5 true).dispatched =
        some (0x1100 ||| BRL_FLG_REPEAT_INITIAL ||| BRL_FLG_REPEAT_DELAY) := by decide
    rw [hd] at hq
    have he := Option.some_inj.mp hq
    subst he
    decide
  have h := C5_one_shot_press_reset tC3 1 0 5 true hg
  simpa using h.2

/-- C6 witness: a non-delayed context-switch command whose target context 1
exists (and is temporary) updates the current context only and is enqueued
as the no-op. -/
theorem C6_context_witness :
    (processCommand tC5 (BRL_BLK_CONTEXT ||| 1)).2 = BRL_CMD_NOOP ∧
    (processCommand tC5 (BRL_BLK_CONTEXT ||| 1)).1.currentContext = 1 ∧
    (processCommand tC5 (BRL_BLK_CONTEXT ||| 1)).1.persistentContext = 0 := by
  obtain ⟨h1, h2, h3⟩ :=
    C6_context_block_intercepted.1 tC5 (BRL_BLK_CONTEXT ||| 1) (by decide)
  obtain ⟨hcc, hpc⟩ := h2 (by decide) { ctxEmpty with isTemporary := true } (by decide)
  refine ⟨h1, ?_, ?_⟩
  · exact hcc.trans (by decide)
  · rw [hpc]
    decide

/-- C7 witness: the overlay accepts a lone dot press in the ordinary
pseudo-context and produces the combined-command flag for dots plus space
in the chord pseudo-context. -/
theorem C7_overlay_witness :
    (makeKeyboardCommand tW7 0).isSome ∧
    (∃ cc, makeKeyboardCommand tW7c BRL_CTX_CHORDS = some cc ∧ cc &&& BRL_DOTC ≠ 0) := by
  constructor
  · have h := (C7_keyboard_overlay_acceptance tW7 0
      { ctxEmpty with keyMap := some [(3, 1)] } [(3, 1)] 0x2201 true false
      (by decide) (by decide) (by decide)).1 (by decide)
    exact h.mpr (by decide)
  · exact (C7_keyboard_overlay_acceptance tW7c BRL_CTX_CHORDS
      { ctxEmpty with keyMap := some [(3, 1), (9, 0)] } [(3, 1), (9, 0)] 0x2201 true true
      (by decide) (by decide) (by decide)).2 (by decide) rfl rfl

/-- C8 witness: re-pressing the held key (0,5) of the steady-state table
tW8 is a complete no-op apart from returning COMMAND. -/
theorem C8_idempotent_witness :
    processKeyEvent tW8 0 0 5 true =
      ⟨KeyTableState.KTS_COMMAND, tW8, none, none, 0⟩ := by
  have h := C8_idempotent_steady_state tW8 0 0 5 0x1100
    (by decide) (by decide) (by decide) (by decide) (by decide)
  exact h.trans (by decide)

/-- C10 witness: a hotkey-resolved press on tW10 leaves the pressed keys,
the active command and the immediate flag unchanged. -/
theorem C10_hotkey_witness :
    (processKeyEvent tW10 0 0 5 true).table.pressedKeys = tW10.pressedKeys ∧
    (processKeyEvent tW10 0 0 5 true).table.command = tW10.command ∧
    (processKeyEvent tW10 0 0 5 true).table.immediate = tW10.immediate :=
  C10_hotkey_frame_effect tW10 0 0 5 true (by decide)

end Ktb
